import Mathlib

/-!
Shallow embedding of the Posture-Check backend (`backend/app/pose_engine.py`
and `backend/app/main.py`) and proofs about its pose-comparison,
auto-detection, angle-extraction and HTTP/persistence behaviour.

Modelling conventions:
* Python floats are modelled by exact rationals `ℚ`; the arithmetic the code
  performs (subtraction, comparison, mean) is exact on the values involved.
* Python dicts appear only through ordered iteration (`.items()`), lookup
  (`d[k]`, `k in d`) and their keys; they are modelled as association lists
  in insertion order, with the dict invariant that keys are distinct.
* The reference catalog `ANGLE_DATA` is loaded from a bundled `angles.json`
  whose contents are static data; all definitions are parametric in the
  catalog, so theorems quantify over it.
* A raised `ValueError` / `KeyError` is modelled by an explicit error value;
  an HTTP 400 `HTTPException` and an unhandled exception (server fault) are
  distinct constructors of the endpoint's result type.
* The hint strings built in `compare_pose` are modelled by a constructor
  carrying the joint name and the deviation amount; the `.1f` numeric
  formatting and title-casing of the string are presentation only.
-/

namespace PostureCheck

/-- Reference range for one joint of one pose: the `angle_min` / `angle_max`
pair stored per joint in `angles.json`. -/
structure AngleRange where
  angle_min : ℚ
  angle_max : ℚ
deriving DecidableEq, Repr

/-- Per-pose reference data: joint name to acceptable range, in insertion
order (`ANGLE_DATA[pose_name]`). -/
abbrev PoseData := List (String × AngleRange)

/-- The reference catalog `ANGLE_DATA`: pose name to per-joint ranges, in the
insertion order of the static table. -/
abbrev Catalog := List (String × PoseData)

/-- Measured angles for one image: joint name to angle in degrees, in the
order `get_all_angles` produced them. -/
abbrev UserAngles := List (String × ℚ)

/-- The list `POSE_LIST = list(ANGLE_DATA.keys())`. -/
def POSE_LIST (catalog : Catalog) : List String :=
  catalog.map Prod.fst

/-- A correction hint emitted by `compare_pose`: either
`"<Joint>: increase by <amount>"` or `"<Joint>: decrease by <amount>"`,
modelled by the joint name, the direction and the (unrounded) amount. -/
inductive Hint where
  | increase (joint : String) (amount : ℚ)
  | decrease (joint : String) (amount : ℚ)
deriving DecidableEq, Repr

/-- The loop body of `compare_pose` (lines 67-81 of `pose_engine.py`): walk
the measured angles in order, skip joints absent from the pose's reference
data, and collect the deviation list `diffs` and the hint list `hints`. -/
def collectDiffs (data : PoseData) : UserAngles → List ℚ × List Hint
  | [] => ([], [])
  | (joint, val) :: rest =>
    match data.lookup joint with
    | none => collectDiffs data rest
    | some r =>
      let (ds, hs) := collectDiffs data rest
      if val < r.angle_min then
        ((r.angle_min - val) :: ds, Hint.increase joint (r.angle_min - val) :: hs)
      else if r.angle_max < val then
        ((val - r.angle_max) :: ds, Hint.decrease joint (val - r.angle_max) :: hs)
      else
        (0 :: ds, hs)

/-- The score of `compare_pose`: `float(np.mean(diffs)) if diffs else 999.0`. -/
def pose_score (ua : UserAngles) (data : PoseData) : ℚ :=
  let ds := (collectDiffs data ua).1
  if ds.isEmpty then 999 else ds.sum / (ds.length : ℚ)

/-- The function `compare_pose(user_angles, pose_name)`. The first line
`data = ANGLE_DATA[pose_name]` raises `KeyError` when the name is not a
catalog key, modelled by `none`. -/
def compare_pose (catalog : Catalog) (ua : UserAngles) (pose_name : String) :
    Option (ℚ × List Hint) :=
  match catalog.lookup pose_name with
  | none => none
  | some data => some (pose_score ua data, (collectDiffs data ua).2)

/-- The loop body of `auto_detect_pose` (lines 89-93 of `pose_engine.py`):
keep a pose only when its comparator score is strictly below the best score
seen so far. -/
def detect_step (ua : UserAngles) (acc : Option String × ℚ) (p : String × PoseData) :
    Option String × ℚ :=
  if pose_score ua p.2 < acc.2 then (some p.1, pose_score ua p.2) else acc

/-- The function `auto_detect_pose(user_angles)`: fold over the catalog in
insertion order starting from `(None, 999.0)`. Iterating the catalog's pairs
directly coincides with iterating `POSE_LIST` and looking each name up,
because dict keys are distinct. -/
def auto_detect_pose (catalog : Catalog) (ua : UserAngles) : Option String × ℚ :=
  catalog.foldl (detect_step ua) (none, 999)

/-- A 3D landmark point `[lm.x, lm.y, lm.z]`, coordinates modelled in `ℚ`. -/
abbrev Point := ℚ × ℚ × ℚ

/-- Componentwise difference of two points (`a - b` on numpy arrays). -/
def ptSub (a b : Point) : Point :=
  (a.1 - b.1, a.2.1 - b.2.1, a.2.2 - b.2.2)

/-- Squared Euclidean norm of a point. The code's degeneracy test
`np.linalg.norm(v1) * np.linalg.norm(v2) == 0` holds exactly when
`normSq v1 * normSq v2 = 0`, since a norm vanishes iff its square does. -/
def normSq (v : Point) : ℚ :=
  v.1 * v.1 + v.2.1 * v.2.1 + v.2.2 * v.2.2

/-- The function `calculate_angle(a, b, c)`. It returns `None` exactly when
the product of the two vector norms is zero; otherwise it returns the
arccos-in-degrees of the clamped normalised dot product, a transcendental
value abstracted here by the parameter `acos` applied to the three points. -/
def calculate_angle (acos : Point → Point → Point → ℚ) (a b c : Point) : Option ℚ :=
  if normSq (ptSub a b) * normSq (ptSub c b) = 0 then none
  else some (acos a b c)

/-- The static table `JOINTS`: joint name to the (proximal, vertex, distal)
landmark names, in insertion order. -/
def JOINTS : List (String × String × String × String) :=
  [("left_knee", "LEFT_HIP", "LEFT_KNEE", "LEFT_ANKLE"),
   ("right_knee", "RIGHT_HIP", "RIGHT_KNEE", "RIGHT_ANKLE"),
   ("left_elbow", "LEFT_SHOULDER", "LEFT_ELBOW", "LEFT_WRIST"),
   ("right_elbow", "RIGHT_SHOULDER", "RIGHT_ELBOW", "RIGHT_WRIST"),
   ("left_shoulder", "LEFT_ELBOW", "LEFT_SHOULDER", "LEFT_HIP"),
   ("right_shoulder", "RIGHT_ELBOW", "RIGHT_SHOULDER", "RIGHT_HIP"),
   ("left_hip", "RIGHT_HIP", "LEFT_HIP", "LEFT_KNEE"),
   ("right_hip", "LEFT_HIP", "RIGHT_HIP", "RIGHT_KNEE"),
   ("neck", "LEFT_SHOULDER", "NOSE", "RIGHT_SHOULDER"),
   ("spine", "LEFT_HIP", "RIGHT_HIP", "NOSE")]

/-- One iteration of the loop in `get_all_angles` for a `JOINTS` entry:
resolve the three landmarks (an exception while resolving, modelled by
`none`, is swallowed), compute the angle, and keep the joint only when the
angle computation succeeded. -/
def joint_result (acos : Point → Point → Point → ℚ) (landmarks : String → Option Point)
    (jd : String × String × String × String) : Option (String × ℚ) :=
  match landmarks jd.2.1, landmarks jd.2.2.1, landmarks jd.2.2.2 with
  | some a, some b, some c => (calculate_angle acos a b c).map (fun ang => (jd.1, ang))
  | _, _, _ => none

/-- The function `get_all_angles(landmarks)`: try each joint of `JOINTS`
independently, in order, collecting only the successes. Total by
construction, matching the code's per-joint `try/except` that swallows every
exception. -/
def get_all_angles (acos : Point → Point → Point → ℚ)
    (landmarks : String → Option Point) : UserAngles :=
  JOINTS.filterMap (joint_result acos landmarks)

/-- An exception escaping `analyze_image`: the explicit
`ValueError("No pose detected")`, or an unhandled `KeyError` from a dict
lookup inside `compare_pose`. -/
inductive EngineError where
  | valueError (msg : String)
  | keyError
deriving DecidableEq, Repr

/-- The result tuple of `analyze_image`: resolved pose name, score, hints and
the raw measured angles. -/
structure Analysis where
  pose_name : String
  score : ℚ
  hints : List Hint
  angles : UserAngles
deriving DecidableEq, Repr

/-- The function `analyze_image(image_bgr, pose_name)`, with the external
pose-estimation model abstracted by its outcome `detection`: `none` when
`results.pose_landmarks` is falsy, `some ua` for the measured angles that
`get_all_angles` extracted from the landmarks. When `pose_name` is `None`
the auto-detector runs, and line 123 then recomputes hints via
`compare_pose(user_angles, pose_name)`; if the auto-detector produced
`best_pose = None`, that lookup `ANGLE_DATA[None]` raises `KeyError`. -/
def analyze_image (catalog : Catalog) (detection : Option UserAngles)
    (pose_name : Option String) : Except EngineError Analysis :=
  match detection with
  | none => Except.error (EngineError.valueError "No pose detected")
  | some ua =>
    match pose_name with
    | some n =>
      match compare_pose catalog ua n with
      | none => Except.error EngineError.keyError
      | some (score, hints) => Except.ok ⟨n, score, hints, ua⟩
    | none =>
      match auto_detect_pose catalog ua with
      | (some n, score) =>
        match compare_pose catalog ua n with
        | none => Except.error EngineError.keyError
        | some (_, hints) => Except.ok ⟨n, score, hints, ua⟩
      | (none, _) => Except.error EngineError.keyError

/-- A persisted `PoseAttempt` row as written by the analyze endpoint (the
synthetic id and server-assigned timestamp are supplied by the store and
carry no logic). -/
structure PoseAttempt where
  pose_name : String
  score : ℚ
  success : Bool
  hints : List Hint
deriving DecidableEq, Repr

/-- The JSON body returned by a successful analyze call. -/
structure PoseAnalysisResponse where
  pose_name : String
  score : ℚ
  hints : List Hint
  angles : UserAngles
deriving DecidableEq, Repr

/-- Outcome of an endpoint call: a 200 response, a raised `HTTPException`
with its status code and detail, or an unhandled exception surfacing as a
generic server fault. -/
inductive ApiResult (α : Type) where
  | ok (value : α)
  | httpError (status : Nat) (detail : String)
  | serverError
deriving DecidableEq, Repr

/-- Line 51 of `main.py`:
`effective_pose_name = pose_name if mode == "manual" and pose_name else None`.
Python truthiness of an optional string: not `None` and not `""`. -/
def effective_pose_name (mode : String) (pose_name : Option String) : Option String :=
  if mode = "manual" ∧ pose_name ≠ none ∧ pose_name ≠ some "" then pose_name else none

/-- The `/api/analyze` endpoint `analyze_pose`, with image decoding and the
pose model abstracted by `decoded`: `none` when `cv2.imdecode` returns
`None`, `some detection` for a decoded frame whose pose-model outcome is
`detection` (as in `analyze_image`). Returns the HTTP result together with
the persistence store after the call; the store is an append-only list of
attempts. -/
def analyze_pose (catalog : Catalog) (decoded : Option (Option UserAngles))
    (mode : String) (pose_name : Option String) (db : List PoseAttempt) :
    ApiResult PoseAnalysisResponse × List PoseAttempt :=
  match decoded with
  | none => (ApiResult.httpError 400 "Invalid image", db)
  | some detection =>
    match analyze_image catalog detection (effective_pose_name mode pose_name) with
    | Except.error (EngineError.valueError msg) => (ApiResult.httpError 400 msg, db)
    | Except.error EngineError.keyError => (ApiResult.serverError, db)
    | Except.ok a =>
      let attempt : PoseAttempt := ⟨a.pose_name, a.score, decide (a.score < 10), a.hints⟩
      (ApiResult.ok ⟨a.pose_name, a.score, a.hints, a.angles⟩, db ++ [attempt])

/-- Deviation of a measured value from a reference range, following the
spec's words: below the minimum it is `min − measured`, above the maximum it
is `measured − max`, otherwise zero. Used only to state the comparator
refinement. -/
def spec_deviation (r : AngleRange) (v : ℚ) : ℚ :=
  if v < r.angle_min then r.angle_min - v
  else if r.angle_max < v then v - r.angle_max
  else 0

/-- Hint for one joint, following the spec's words: an "increase" hint below
the minimum, a "decrease" hint above the maximum, no hint otherwise. -/
def spec_hint (j : String) (r : AngleRange) (v : ℚ) : Option Hint :=
  if v < r.angle_min then some (Hint.increase j (r.angle_min - v))
  else if r.angle_max < v then some (Hint.decrease j (v - r.angle_max))
  else none

/-- The joints considered by the comparator per the spec: exactly those
present in both the measured mapping and the pose's reference ranges, each
with its range and measured value. -/
def spec_comparable (data : PoseData) (ua : UserAngles) : List (String × AngleRange × ℚ) :=
  ua.filterMap (fun p => (data.lookup p.1).map (fun r => (p.1, r, p.2)))

/-- The deviations recorded over the comparable joints, zeros included. -/
def spec_deviations (data : PoseData) (ua : UserAngles) : List ℚ :=
  (spec_comparable data ua).map (fun t => spec_deviation t.2.1 t.2.2)

/-- The hints recorded over the comparable joints, following the spec. -/
def spec_hints (data : PoseData) (ua : UserAngles) : List Hint :=
  (spec_comparable data ua).filterMap (fun t => spec_hint t.1 t.2.1 t.2.2)

/-- The comparator score per the spec: arithmetic mean of all recorded
deviations, zeros included, or 999.0 when no joint was comparable. -/
def spec_score (data : PoseData) (ua : UserAngles) : ℚ :=
  if (spec_deviations data ua).isEmpty then 999
  else (spec_deviations data ua).sum / ((spec_deviations data ua).length : ℚ)

/-- A small concrete catalog (shaped like the entries of `angles.json`) used
to instantiate theorems with hypotheses on explicit inputs. -/
def sampleCatalog : Catalog :=
  [("tree", [("left_knee", ⟨160, 180⟩)]),
   ("warrior", [("left_knee", ⟨80, 100⟩), ("right_knee", ⟨160, 180⟩)])]

/-! Lemmas about the comparator loop. -/

/-- The pair collected by the comparator loop is, componentwise, the
spec-side deviation list and hint list. -/
theorem collectDiffs_eq_spec (data : PoseData) (ua : UserAngles) :
    collectDiffs data ua = (spec_deviations data ua, spec_hints data ua) := by
  induction ua with
  | nil => rfl
  | cons p rest ih =>
    obtain ⟨j, v⟩ := p
    cases hl : data.lookup j with
    | none =>
      simpa [collectDiffs, spec_deviations, spec_hints, spec_comparable, hl] using ih
    | some r =>
      simp only [collectDiffs, hl, ih, spec_deviations, spec_hints, spec_comparable,
        List.filterMap_cons, Option.map_some]
      by_cases h1 : v < r.angle_min
      · simp [spec_deviation, spec_hint, h1]
      · by_cases h2 : r.angle_max < v
        · simp [spec_deviation, spec_hint, h1, h2]
        · simp [spec_deviation, spec_hint, h1, h2]

/-- When no measured joint occurs in the reference data, the loop collects
nothing. -/
theorem collectDiffs_no_common (data : PoseData) (ua : UserAngles)
    (hnone : ∀ j ∈ ua.map Prod.fst, data.lookup j = none) :
    collectDiffs data ua = ([], []) := by
  induction ua with
  | nil => rfl
  | cons p rest ih =>
    obtain ⟨j, v⟩ := p
    have hj : data.lookup j = none := hnone j (by simp)
    simp only [collectDiffs, hj]
    exact ih (fun j2 hj2 => hnone j2 (by simp [List.mem_map] at hj2 ⊢; exact Or.inr hj2))

/-- Every deviation the comparator loop records is non-negative. -/
theorem collectDiffs_nonneg (data : PoseData) (ua : UserAngles) :
    ∀ x ∈ (collectDiffs data ua).1, 0 ≤ x := by
  induction ua with
  | nil => simp [collectDiffs]
  | cons p rest ih =>
    obtain ⟨j, v⟩ := p
    intro x hx
    cases hl : data.lookup j with
    | none =>
      rw [show collectDiffs data ((j, v) :: rest) = collectDiffs data rest by
        simp [collectDiffs, hl]] at hx
      exact ih x hx
    | some r =>
      simp only [collectDiffs, hl] at hx
      by_cases h1 : v < r.angle_min
      · simp only [h1, if_pos] at hx
        rcases List.mem_cons.mp hx with rfl | hx
        · linarith
        · exact ih x hx
      · by_cases h2 : r.angle_max < v
        · simp only [h1, h2, if_neg, if_pos, not_false_iff] at hx
          rcases List.mem_cons.mp hx with rfl | hx
          · linarith
          · exact ih x hx
        · simp only [h1, h2, if_neg, not_false_iff] at hx
          rcases List.mem_cons.mp hx with rfl | hx
          · exact le_refl 0
          · exact ih x hx

/-- The comparator score is non-negative for any reference data. -/
theorem pose_score_nonneg (ua : UserAngles) (data : PoseData) :
    0 ≤ pose_score ua data := by
  unfold pose_score
  by_cases he : (collectDiffs data ua).1.isEmpty
  · simp [he]
  · simp only [he, if_neg, Bool.not_eq_true, not_false_iff]
    apply div_nonneg
    · exact List.sum_nonneg (collectDiffs_nonneg data ua)
    · exact Nat.cast_nonneg _

/-! Claim theorems about the comparator. -/

/-- C2: for every measured-angles mapping and catalog pose, the comparator
considers exactly the joints present in both the mapping and the pose's
reference ranges; strictly below the minimum a joint contributes deviation
`min − measured` and an increase hint, strictly above the maximum it
contributes `measured − max` and a decrease hint (given the catalog
invariant `angle_min ≤ angle_max`), at or within the bounds it contributes
deviation 0 and no hint; the score is the arithmetic mean of all the
deviations, zeros included. -/
theorem compare_pose_meets_spec (catalog : Catalog) (ua : UserAngles) (name : String)
    (data : PoseData) (h : catalog.lookup name = some data) :
    compare_pose catalog ua name = some (spec_score data ua, spec_hints data ua) ∧
    (∀ (j : String) (r : AngleRange) (v : ℚ), v < r.angle_min →
      spec_deviation r v = r.angle_min - v ∧
      spec_hint j r v = some (Hint.increase j (r.angle_min - v))) ∧
    (∀ (j : String) (r : AngleRange) (v : ℚ), r.angle_min ≤ r.angle_max →
      r.angle_max < v →
      spec_deviation r v = v - r.angle_max ∧
      spec_hint j r v = some (Hint.decrease j (v - r.angle_max))) ∧
    (∀ (j : String) (r : AngleRange) (v : ℚ), r.angle_min ≤ v → v ≤ r.angle_max →
      spec_deviation r v = 0 ∧ spec_hint j r v = none) := by
  refine ⟨?_, ?_, ?_, ?_⟩
  · simp [compare_pose, h, pose_score, collectDiffs_eq_spec, spec_score]
  · intro j r v hv
    simp [spec_deviation, spec_hint, hv]
  · intro j r v hr hv
    have hnv : ¬ v < r.angle_min := by linarith
    simp [spec_deviation, spec_hint, hnv, hv]
  · intro j r v h1 h2
    have hnv : ¬ v < r.angle_min := by linarith
    have hnv2 : ¬ r.angle_max < v := by linarith
    simp [spec_deviation, spec_hint, hnv, hnv2]

/-- C2 witness: the spec's worked scenario, measured `left_knee = 150`
against the `tree` reference range `[160, 180]`. -/
theorem compare_pose_meets_spec_witness :
    (sampleCatalog.lookup "tree" = some [("left_knee", ⟨160, 180⟩)]) ∧
    compare_pose sampleCatalog [("left_knee", 150)] "tree" =
      some (spec_score [("left_knee", ⟨160, 180⟩)] [("left_knee", 150)],
            spec_hints [("left_knee", ⟨160, 180⟩)] [("left_knee", 150)]) :=
  ⟨by decide,
   (compare_pose_meets_spec sampleCatalog [("left_knee", 150)] "tree"
      [("left_knee", ⟨160, 180⟩)] (by decide)).1⟩

/-- C4: with no joint present in both the mapping and the pose's reference
ranges, the comparator returns exactly the sentinel score 999.0 and an empty
hint list. -/
theorem compare_pose_sentinel (catalog : Catalog) (ua : UserAngles) (name : String)
    (data : PoseData) (h : catalog.lookup name = some data)
    (hnone : ∀ j ∈ ua.map Prod.fst, data.lookup j = none) :
    compare_pose catalog ua name = some (999, []) := by
  simp [compare_pose, h, pose_score, collectDiffs_no_common data ua hnone]

/-- C4 witness: measuring only `right_knee` against `tree`, whose reference
data has only `left_knee`. -/
theorem compare_pose_sentinel_witness :
    (sampleCatalog.lookup "tree" = some [("left_knee", ⟨160, 180⟩)]) ∧
    compare_pose sampleCatalog [("right_knee", 90)] "tree" = some (999, []) :=
  ⟨by decide,
   compare_pose_sentinel sampleCatalog [("right_knee", 90)] "tree"
     [("left_knee", ⟨160, 180⟩)] (by decide) (by decide)⟩

/-- C10: every score the comparator returns is non-negative, whether it is
the sentinel 999.0 or a mean of per-joint deviations, each of which is
non-negative. -/
theorem compare_pose_score_nonneg (catalog : Catalog) (ua : UserAngles) (name : String)
    (s : ℚ) (hs : List Hint) (hc : compare_pose catalog ua name = some (s, hs)) :
    0 ≤ s := by
  unfold compare_pose at hc
  cases hl : catalog.lookup name with
  | none => rw [hl] at hc; exact absurd hc (by simp)
  | some data =>
    rw [hl] at hc
    have : s = pose_score ua data := by
      injection hc with hc2
      exact (congrArg Prod.fst hc2).symm
    rw [this]
    exact pose_score_nonneg ua data

/-- C10 witness: the sentinel case on an empty mapping. -/
theorem compare_pose_score_nonneg_witness :
    (compare_pose sampleCatalog [] "tree" = some (999, [])) ∧ (0 : ℚ) ≤ 999 :=
  ⟨by decide, compare_pose_score_nonneg sampleCatalog [] "tree" 999 [] (by decide)⟩

/-! Lemmas about the auto-detector fold. -/

/-- Characterization of the auto-detector fold from an arbitrary state
`(b, s)`: either no pose beat `s` and the state passes through unchanged, or
the fold ends on the earliest pose attaining the minimal score, which is
strictly below `s`, at most every pose's score, and strictly below the score
of every earlier pose. -/
theorem detect_foldl_char (ua : UserAngles) (l : Catalog) :
    ∀ (b : Option String) (s : ℚ),
      (l.foldl (detect_step ua) (b, s) = (b, s) ∧ ∀ p ∈ l, s ≤ pose_score ua p.2) ∨
      (∃ i, ∃ hi : i < l.length,
        l.foldl (detect_step ua) (b, s) =
          (some (l.get ⟨i, hi⟩).1, pose_score ua (l.get ⟨i, hi⟩).2) ∧
        pose_score ua (l.get ⟨i, hi⟩).2 < s ∧
        (∀ p ∈ l, pose_score ua (l.get ⟨i, hi⟩).2 ≤ pose_score ua p.2) ∧
        ∀ j, ∀ hj : j < l.length, j < i →
          pose_score ua (l.get ⟨i, hi⟩).2 < pose_score ua (l.get ⟨j, hj⟩).2) := by
  induction l with
  | nil =>
    intro b s
    left
    exact ⟨rfl, by simp⟩
  | cons hd tl ih =>
    intro b s
    rw [List.foldl_cons]
    by_cases hlt : pose_score ua hd.2 < s
    · rw [show detect_step ua (b, s) hd = (some hd.1, pose_score ua hd.2) by
        simp [detect_step, hlt]]
      rcases ih (some hd.1) (pose_score ua hd.2) with ⟨heq, hall⟩ | ⟨i, hi, heq, hbest, hall, hfirst⟩
      · right
        refine ⟨0, by simp, by simpa using heq, hlt, ?_, ?_⟩
        · intro p hp
          rcases List.mem_cons.mp hp with rfl | hp
          · exact le_refl _
          · exact hall p hp
        · intro j hj hj0
          exact absurd hj0 (Nat.not_lt_zero j)
      · right
        refine ⟨i + 1, by simpa using Nat.succ_lt_succ hi, by simpa using heq, ?_, ?_, ?_⟩
        · exact lt_trans hbest hlt
        · intro p hp
          rcases List.mem_cons.mp hp with rfl | hp
          · exact le_of_lt hbest
          · exact hall p hp
        · intro j hj hji
          cases j with
          | zero => simpa using hbest
          | succ j2 =>
            have hj2 : j2 < tl.length := Nat.lt_of_succ_lt_succ hj
            have := hfirst j2 hj2 (Nat.lt_of_succ_lt_succ hji)
            simpa using this
    · rw [show detect_step ua (b, s) hd = (b, s) by simp [detect_step, hlt]]
      rcases ih b s with ⟨heq, hall⟩ | ⟨i, hi, heq, hbest, hall, hfirst⟩
      · left
        refine ⟨heq, ?_⟩
        intro p hp
        rcases List.mem_cons.mp hp with rfl | hp
        · exact le_of_not_lt hlt
        · exact hall p hp
      · right
        refine ⟨i + 1, by simpa using Nat.succ_lt_succ hi, by simpa using heq, ?_, ?_, ?_⟩
        · exact hbest
        · intro p hp
          rcases List.mem_cons.mp hp with rfl | hp
          · exact le_of_lt (lt_of_lt_of_le hbest (le_of_not_lt hlt))
          · exact hall p hp
        · intro j hj hji
          cases j with
          | zero => simpa using lt_of_lt_of_le hbest (le_of_not_lt hlt)
          | succ j2 =>
            have hj2 : j2 < tl.length := Nat.lt_of_succ_lt_succ hj
            have := hfirst j2 hj2 (Nat.lt_of_succ_lt_succ hji)
            simpa using this

/-- On an empty measured mapping every pose scores the sentinel 999, so the
auto-detector never improves on its initial state `(None, 999.0)`. -/
theorem auto_detect_pose_empty_angles (catalog : Catalog) :
    auto_detect_pose catalog [] = (none, 999) := by
  have haux : ∀ (l : Catalog) (b : Option String), l.foldl (detect_step []) (b, 999) = (b, 999) := by
    intro l
    induction l with
    | nil => intro b; rfl
    | cons hd tl ih =>
      intro b
      rw [List.foldl_cons,
        show detect_step [] (b, 999) hd = (b, 999) by
          simp [detect_step, pose_score, collectDiffs]]
      exact ih b
  exact haux catalog none

/-- C1 counterexample: on the empty measured-angles mapping (every
comparator score is the sentinel 999.0) the auto-detector returns `None`,
which is not a pose name of the catalog. -/
theorem auto_detect_pose_cex :
    (auto_detect_pose sampleCatalog []).1 = none ∧
    ∀ name ∈ POSE_LIST sampleCatalog, (auto_detect_pose sampleCatalog []).1 ≠ some name := by
  decide

/-- C1 (amended): whenever at least one catalog pose scores strictly below
999.0 for the measured mapping, the auto-detector returns the name of a
catalog pose (at some index `i`, in insertion order) whose comparator score
it also returns, and that score is at most the comparator score of every
catalog pose and strictly below the score of every earlier pose (so ties go
to the earlier pose). -/
theorem auto_detect_pose_min (catalog : Catalog) (ua : UserAngles)
    (hex : ∃ p ∈ catalog, pose_score ua p.2 < 999) :
    ∃ i, ∃ hi : i < catalog.length,
      (auto_detect_pose catalog ua).1 = some (catalog.get ⟨i, hi⟩).1 ∧
      (catalog.get ⟨i, hi⟩).1 ∈ POSE_LIST catalog ∧
      (auto_detect_pose catalog ua).2 = pose_score ua (catalog.get ⟨i, hi⟩).2 ∧
      (∀ p ∈ catalog, (auto_detect_pose catalog ua).2 ≤ pose_score ua p.2) ∧
      ∀ j, ∀ hj : j < catalog.length, j < i →
        (auto_detect_pose catalog ua).2 < pose_score ua (catalog.get ⟨j, hj⟩).2 := by
  rcases detect_foldl_char ua catalog none 999 with ⟨heq, hall⟩ | ⟨i, hi, heq, hbest, hall, hfirst⟩
  · exfalso
    rcases hex with ⟨p, hp, hps⟩
    exact absurd (hall p hp) (not_le_of_lt hps)
  · have hres : auto_detect_pose catalog ua =
        (some (catalog.get ⟨i, hi⟩).1, pose_score ua (catalog.get ⟨i, hi⟩).2) := heq
    refine ⟨i, hi, ?_, ?_, ?_, ?_, ?_⟩
    · rw [hres]
    · exact List.mem_map_of_mem Prod.fst (catalog.get_mem i hi)
    · rw [hres]
    · intro p hp
      rw [hres]
      exact hall p hp
    · intro j hj hji
      rw [hres]
      exact hfirst j hj hji

/-- C1 witness: with `left_knee = 150` measured, `tree` scores 10 and wins. -/
theorem auto_detect_pose_min_witness :
    (∃ p ∈ sampleCatalog, pose_score [("left_knee", 150)] p.2 < 999) ∧
    (∃ i, ∃ hi : i < sampleCatalog.length,
      (auto_detect_pose sampleCatalog [("left_knee", 150)]).1 =
        some (sampleCatalog.get ⟨i, hi⟩).1 ∧
      (sampleCatalog.get ⟨i, hi⟩).1 ∈ POSE_LIST sampleCatalog ∧
      (auto_detect_pose sampleCatalog [("left_knee", 150)]).2 =
        pose_score [("left_knee", 150)] (sampleCatalog.get ⟨i, hi⟩).2 ∧
      (∀ p ∈ sampleCatalog,
        (auto_detect_pose sampleCatalog [("left_knee", 150)]).2 ≤
          pose_score [("left_knee", 150)] p.2) ∧
      ∀ j, ∀ hj : j < sampleCatalog.length, j < i →
        (auto_detect_pose sampleCatalog [("left_knee", 150)]).2 <
          pose_score [("left_knee", 150)] (sampleCatalog.get ⟨j, hj⟩).2) := by
  have hscore : pose_score [("left_knee", 150)] [("left_knee", (⟨160, 180⟩ : AngleRange))] = 10 := by
    norm_num [pose_score, collectDiffs, List.lookup]
  have hex : ∃ p ∈ sampleCatalog, pose_score [("left_knee", 150)] p.2 < 999 :=
    ⟨("tree", [("left_knee", ⟨160, 180⟩)]), by decide, by rw [hscore]; norm_num⟩
  exact ⟨hex, auto_detect_pose_min sampleCatalog [("left_knee", 150)] hex⟩

/-! Claim theorems about the orchestrator and the endpoint. -/

/-- C3: when the model detects landmarks but every joint is degenerate or
unresolvable, the extractor yields the empty mapping (shown here for all
landmarks collapsing to one point, which zeroes both vectors of every
joint), every comparator score is then the sentinel so the auto-detector
yields no pose name, and the endpoint in auto mode surfaces the resulting
lookup failure as a server fault, not as the handled 400 client error. -/
theorem empty_angles_auto_server_fault :
    (∀ (acos : Point → Point → Point → ℚ) (p : Point),
      get_all_angles acos (fun _ => some p) = []) ∧
    (∀ catalog : Catalog, auto_detect_pose catalog [] = (none, 999)) ∧
    (∀ (catalog : Catalog) (pn : Option String) (db : List PoseAttempt),
      analyze_pose catalog (some (some [])) "auto" pn db = (ApiResult.serverError, db)) := by
  refine ⟨?_, auto_detect_pose_empty_angles, ?_⟩
  · intro acos p
    have hz : calculate_angle acos p p p = none := by
      simp [calculate_angle, ptSub, normSq]
    simp [get_all_angles, JOINTS, joint_result, hz]
  · intro catalog pn db
    have h1 : effective_pose_name "auto" pn = none := by
      simp [effective_pose_name]
    simp [analyze_pose, analyze_image, h1, auto_detect_pose_empty_angles catalog]

/-- C5: any attempt record the analyze endpoint appends to the store has its
success flag true exactly when its score is strictly below 10.0; in
particular a score of exactly 10.0 is persisted as a failure. -/
theorem persisted_success_iff (catalog : Catalog) (decoded : Option (Option UserAngles))
    (mode : String) (pn : Option String) (db : List PoseAttempt) (a : PoseAttempt)
    (happ : (analyze_pose catalog decoded mode pn db).2 = db ++ [a]) :
    (a.success = true ↔ a.score < 10) ∧ (a.score = 10 → a.success = false) := by
  rcases decoded with _ | detection
  · exfalso
    simp [analyze_pose] at happ
  · rcases hA : analyze_image catalog detection (effective_pose_name mode pn) with e | r
    · exfalso
      rcases e with msg | _ <;> simp [analyze_pose, hA] at happ
    · have h2 := happ
      simp only [analyze_pose, hA] at h2
      have h3 : (⟨r.pose_name, r.score, decide (r.score < 10), r.hints⟩ : PoseAttempt) = a := by
        have h4 := List.append_cancel_left h2
        simpa using h4
      rw [← h3]
      refine ⟨by simp, ?_⟩
      intro hs
      have hs2 : r.score = 10 := hs
      show decide (r.score < 10) = false
      rw [hs2]
      exact decide_eq_false (lt_irrefl 10)

/-- C5 witness: the spec's scenario `left_knee = 150` against `tree`
produces score exactly 10.0 and a persisted failure. -/
theorem persisted_success_iff_witness :
    ((analyze_pose sampleCatalog (some (some [("left_knee", 150)])) "auto" none []).2 =
      [] ++ [⟨"tree", 10, false, [Hint.increase "left_knee" 10]⟩]) ∧
    (((⟨"tree", 10, false, [Hint.increase "left_knee" 10]⟩ : PoseAttempt).success = true ↔
        (⟨"tree", 10, false, [Hint.increase "left_knee" 10]⟩ : PoseAttempt).score < 10) ∧
      ((⟨"tree", 10, false, [Hint.increase "left_knee" 10]⟩ : PoseAttempt).score = 10 →
        (⟨"tree", 10, false, [Hint.increase "left_knee" 10]⟩ : PoseAttempt).success = false)) := by
  have hscore2 : pose_score [("left_knee", 150)] [("left_knee", (⟨160, 180⟩ : AngleRange))] = 10 := by
    norm_num [pose_score, collectDiffs, List.lookup]
  have hrun : (analyze_pose sampleCatalog (some (some [("left_knee", 150)])) "auto" none []).2 =
      [] ++ [⟨"tree", 10, false, [Hint.increase "left_knee" 10]⟩] := by
    have hcmp : compare_pose sampleCatalog [("left_knee", 150)] "tree" =
        some (10, [Hint.increase "left_knee" 10]) := by
      simp only [compare_pose, show sampleCatalog.lookup "tree" =
        some [("left_knee", (⟨160, 180⟩ : AngleRange))] by decide, hscore2]
      norm_num [collectDiffs, List.lookup]
    have hauto : auto_detect_pose sampleCatalog [("left_knee", 150)] = (some "tree", 10) := by
      simp only [sampleCatalog, auto_detect_pose, List.foldl, detect_step, hscore2]
      norm_num [pose_score, collectDiffs, List.lookup]
    simp [analyze_pose, analyze_image, effective_pose_name, hauto, hcmp]
  exact ⟨hrun, persisted_success_iff sampleCatalog (some (some [("left_knee", 150)]))
    "auto" none [] ⟨"tree", 10, false, [Hint.increase "left_knee" 10]⟩ hrun⟩

/-- C6: an undecodable upload and a frame with no detected body both fail
with HTTP 400 (with the respective details), and in both cases the
persistence store is returned unchanged. -/
theorem analyze_client_errors (catalog : Catalog) (mode : String)
    (pn : Option String) (db : List PoseAttempt) :
    analyze_pose catalog none mode pn db = (ApiResult.httpError 400 "Invalid image", db) ∧
    analyze_pose catalog (some none) mode pn db =
      (ApiResult.httpError 400 "No pose detected", db) :=
  ⟨rfl, rfl⟩

/-- C8: when the mode is anything other than "manual", or the supplied pose
name is absent or empty, the analyze endpoint behaves exactly as a call with
no pose name at all (auto mode): the supplied name is ignored. -/
theorem non_manual_ignores_pose_name (catalog : Catalog)
    (decoded : Option (Option UserAngles)) (mode : String) (pn : Option String)
    (db : List PoseAttempt) (h : mode ≠ "manual" ∨ pn = none ∨ pn = some "") :
    analyze_pose catalog decoded mode pn db = analyze_pose catalog decoded "auto" none db := by
  have he1 : effective_pose_name mode pn = none := by
    unfold effective_pose_name
    rcases h with h | h | h
    · rw [if_neg]
      intro hc
      exact h hc.1
    · rw [if_neg]
      intro hc
      exact hc.2.1 h
    · rw [if_neg]
      intro hc
      exact hc.2.2 h
  have he2 : effective_pose_name "auto" none = none := by
    simp [effective_pose_name]
  unfold analyze_pose
  rw [he1, he2]

/-- C8 witness: a non-manual mode with an explicit pose name supplied. -/
theorem non_manual_ignores_pose_name_witness :
    ("auto" ≠ "manual" ∨ (some "warrior" : Option String) = none ∨
      (some "warrior" : Option String) = some "") ∧
    analyze_pose sampleCatalog (some (some [("left_knee", 150)])) "auto" (some "warrior") [] =
      analyze_pose sampleCatalog (some (some [("left_knee", 150)])) "auto" none [] :=
  ⟨Or.inl (by decide),
   non_manual_ignores_pose_name sampleCatalog (some (some [("left_knee", 150)]))
     "auto" (some "warrior") [] (Or.inl (by decide))⟩

/-- C9: a pose name that is not a key of the catalog makes the comparator
fail with a lookup error (modelled by `none`), with no prior validation; at
the endpoint, a manual call with such a name surfaces as an unhandled server
fault, not as a handled 400 client error. -/
theorem unknown_pose_name_lookup_error (catalog : Catalog) (ua : UserAngles)
    (name : String) (db : List PoseAttempt) (h : catalog.lookup name = none) :
    compare_pose catalog ua name = none ∧
    (name ≠ "" →
      analyze_pose catalog (some (some ua)) "manual" (some name) db =
        (ApiResult.serverError, db)) := by
  constructor
  · simp [compare_pose, h]
  · intro hne
    have he : effective_pose_name "manual" (some name) = some name := by
      simp [effective_pose_name, hne]
    simp [analyze_pose, analyze_image, he, compare_pose, h]

/-- C9 witness: the name "cobra" is not in the sample catalog. -/
theorem unknown_pose_name_lookup_error_witness :
    (sampleCatalog.lookup "cobra" = none) ∧
    compare_pose sampleCatalog [] "cobra" = none ∧
    ("cobra" ≠ "" →
      analyze_pose sampleCatalog (some (some [])) "manual" (some "cobra") [] =
        (ApiResult.serverError, [])) :=
  ⟨by decide,
   unknown_pose_name_lookup_error sampleCatalog [] "cobra" [] (by decide)⟩

/-! Lemmas and claim theorem for the angle extractor. -/

/-- A successful joint computation is keyed by that joint's own name. -/
theorem joint_result_key (acos : Point → Point → Point → ℚ)
    (lms : String → Option Point) (jd : String × String × String × String)
    (y : String × ℚ) (h : joint_result acos lms jd = some y) : y.1 = jd.1 := by
  cases h1 : lms jd.2.1 <;> cases h2 : lms jd.2.2.1 <;> cases h3 : lms jd.2.2.2 <;>
    simp [joint_result, h1, h2, h3] at h
  rcases h with ⟨ang, hang, hy⟩
  rw [← hy]

/-- If an entry of a key-distinct list fails, no pair with that entry's key
appears in the `filterMap` of a key-preserving function. -/
theorem filterMap_key_not_mem (f : String × String × String × String → Option (String × ℚ))
    (l : List (String × String × String × String))
    (hkey : ∀ x ∈ l, ∀ y, f x = some y → y.1 = x.1)
    (hnd : (l.map Prod.fst).Nodup)
    (x : String × String × String × String) (hx : x ∈ l) (hfx : f x = none) (v : ℚ) :
    (x.1, v) ∉ l.filterMap f := by
  intro hmem
  rcases List.mem_filterMap.mp hmem with ⟨x2, hx2, hfx2⟩
  have hk : x2.1 = x.1 := by
    have := hkey x2 hx2 _ hfx2
    simpa using this.symm
  have hxx : x2 = x := List.inj_on_of_nodup_map hnd hx2 hx hk
  rw [hxx, hfx] at hfx2
  exact Option.noConfusion hfx2

/-- C7: for any joint of the `JOINTS` table, if resolving one of its three
landmarks fails (a swallowed exception, modelled by `none`) or the two
formed vectors are degenerate (the product of their norms is zero, the
code's `denom == 0` test), that joint is omitted from the angle mapping and
nothing is raised; and every entry of the mapping comes from a joint whose
computation succeeded, so the (total) extractor returns exactly the partial
mapping of successful joints. -/
theorem get_all_angles_omits_failed_joints (acos : Point → Point → Point → ℚ)
    (lms : String → Option Point) (jd : String × String × String × String)
    (hjd : jd ∈ JOINTS)
    (hfail : lms jd.2.1 = none ∨ lms jd.2.2.1 = none ∨ lms jd.2.2.2 = none ∨
      ∃ a b c, lms jd.2.1 = some a ∧ lms jd.2.2.1 = some b ∧ lms jd.2.2.2 = some c ∧
        normSq (ptSub a b) * normSq (ptSub c b) = 0) :
    (∀ v : ℚ, (jd.1, v) ∉ get_all_angles acos lms) ∧
    (∀ (j : String) (v : ℚ), (j, v) ∈ get_all_angles acos lms →
      ∃ jd2 ∈ JOINTS, joint_result acos lms jd2 = some (j, v)) := by
  constructor
  · have hres : joint_result acos lms jd = none := by
      rcases hfail with h | h | h | ⟨a, b, c, h1, h2, h3, hdeg⟩
      · cases h2 : lms jd.2.2.1 <;> cases h3 : lms jd.2.2.2 <;>
          simp [joint_result, h, h2, h3]
      · cases h1 : lms jd.2.1 <;> cases h3 : lms jd.2.2.2 <;>
          simp [joint_result, h, h1, h3]
      · cases h1 : lms jd.2.1 <;> cases h2 : lms jd.2.2.1 <;>
          simp [joint_result, h, h1, h2]
      · simp [joint_result, h1, h2, h3, calculate_angle, hdeg]
    intro v
    exact filterMap_key_not_mem (joint_result acos lms) JOINTS
      (fun x _ y hy => joint_result_key acos lms x y hy) (by decide) jd hjd hres v
  · intro j v hm
    exact List.mem_filterMap.mp hm

/-- C7 witness: with every landmark reported at the origin, both vectors of
`left_knee` are zero-length and the joint is omitted. -/
theorem get_all_angles_omits_failed_joints_witness :
    (("left_knee", "LEFT_HIP", "LEFT_KNEE", "LEFT_ANKLE") ∈ JOINTS) ∧
    ((("left_knee", (0 : ℚ)) ∉
      get_all_angles (fun _ _ _ => 0) (fun _ => some ((0 : ℚ), (0 : ℚ), (0 : ℚ))))) :=
  ⟨by decide,
   (get_all_angles_omits_failed_joints (fun _ _ _ => 0) (fun _ => some ((0 : ℚ), (0 : ℚ), (0 : ℚ)))
      ("left_knee", "LEFT_HIP", "LEFT_KNEE", "LEFT_ANKLE") (by decide)
      (Or.inr (Or.inr (Or.inr ⟨(0, 0, 0), (0, 0, 0), (0, 0, 0), rfl, rfl, rfl,
        by norm_num [normSq, ptSub]⟩)))).1 0⟩

end PostureCheck
